import Mathlib

/-
Shallow Lean embedding of the video-converter repository (a React +
ffmpeg.wasm application). Pure functions are translated directly from
the TypeScript source. JS numbers are modelled as exact rationals;
computations that would produce NaN or Infinity in JS (failed Number
or parseInt coercions, division by a zero pixel count) are modelled
with Option, where none stands for a non-finite JS number. JS string
primitives (split, replace, startsWith, number formatting) are given
structurally recursive implementations over the character list of a
String so that every definition evaluates inside the kernel. The
stateful Transcoder component and the diagnostic batch runner are
modelled further below as state machines driven by event lists.
-/

namespace VideoConverter

/-- Single-character split, the semantics of JS s.split(sep) for a
one-character separator: the result is never empty and keeps empty
pieces, so for example splitting the empty list yields one empty
piece. -/
def splitChar (c : Char) : List Char → List (List Char)
  | [] => [[]]
  | a :: rest =>
      let r := splitChar c rest
      if a = c then [] :: r
      else
        match r with
        | [] => [[a]]
        | g :: gs => (a :: g) :: gs

/-- Value of a list of decimal digit characters. -/
def digitsVal (cs : List Char) : Nat :=
  cs.foldl (fun acc c => acc * 10 + (c.toNat - 48)) 0

/-- Model of the JS Number(s) coercion used by split(..).map(Number):
the whole string must be numeric, none models NaN. The JS corner case
Number of the empty string being 0 is not modelled; the app guards
empty resolution strings upstream. -/
def jsNumberNat (s : String) : Option Nat :=
  match s.data with
  | [] => none
  | cs => if cs.all Char.isDigit then some (digitsVal cs) else none

/-- Model of JS parseInt(s, 10) restricted to the strings this app
produces: the longest digit prefix is parsed, and none models NaN
(no leading digits). Leading sign and whitespace handling is not
modelled, as resolution strings never carry them. -/
def jsParseInt (s : String) : Option Nat :=
  match s.data.takeWhile Char.isDigit with
  | [] => none
  | ds => some (digitsVal ds)

/-- Model of s.split(sep) producing strings again. -/
def jsSplit (s : String) (sep : Char) : List String :=
  (splitChar sep s.data).map fun cs => String.mk cs

/-- Model of s.split(sep).pop(): split never yields an empty array in
JS, so pop is the last piece. -/
def jsLastSegment (s : String) (sep : Char) : String :=
  (jsSplit s sep).getLastD ""

/-- Model of the JS idiom (name.split(".").pop() or fallback): the
empty string is the only falsy string, so it selects the fallback. -/
def jsExtension (name fallback : String) : String :=
  if jsLastSegment name '.' = "" then fallback else jsLastSegment name '.'

/-- First-occurrence character replacement, the semantics of JS
s.replace(pat, rep) for one-character pattern and replacement. -/
def replaceFirstChar (pat rep : Char) : List Char → List Char
  | [] => []
  | a :: rest => if a = pat then rep :: rest else a :: replaceFirstChar pat rep rest

/-- Model of JS s.replace(pat, rep) on strings. -/
def jsReplaceFirst (s : String) (pat rep : Char) : String :=
  ⟨replaceFirstChar pat rep s.data⟩

/-- Model of JS s.startsWith(pre). -/
def jsStartsWith (s pre : String) : Bool :=
  pre.data.isPrefixOf s.data

/-- Decimal rendering of a natural number (the JS template-literal
coercion), implemented with fuel so it evaluates in the kernel. -/
def natToCharsAux : Nat → Nat → List Char → List Char
  | 0, _, acc => acc
  | fuel + 1, n, acc =>
      if n < 10 then Char.ofNat (48 + n) :: acc
      else natToCharsAux fuel (n / 10) (Char.ofNat (48 + n % 10) :: acc)

/-- Decimal rendering of a natural number as a String. -/
def jsNatToString (n : Nat) : String :=
  ⟨natToCharsAux (n + 1) n []⟩

/-- Decimal rendering of an integer as a String. -/
def jsIntToString (i : ℤ) : String :=
  if i < 0 then "-" ++ jsNatToString i.natAbs else jsNatToString i.natAbs

/-- Model of args.join with a single space. -/
def joinSpace : List String → String
  | [] => ""
  | [a] => a
  | a :: rest => a ++ " " ++ joinSpace rest

/-- Model of JS Math.round on finite numbers: round half toward
positive infinity. -/
def jsRound (q : ℚ) : ℤ :=
  ⌊q + 1 / 2⌋

/-- Output settings as produced by OutputSettingsMenu: resolution is
the label string such as 640x360. -/
structure OutputSettings where
  resolution : String
  framerate : Nat
  bitrate : Nat
  audioMono : Bool
deriving DecidableEq

/-- Probe result produced by analyzeVideo (duration in seconds). -/
structure VideoAnalysis where
  inputWidth : Nat
  inputHeight : Nat
  scaleFactor : ℚ
  duration : ℚ
  inputFramerate : Nat
deriving DecidableEq

/-- Model of: const arr = s.split("x").map(Number); const [w, h] = arr.
A missing piece is undefined, and Number(undefined) is NaN (none). -/
def parseResNum (s : String) : Option Nat × Option Nat :=
  let parts := (jsSplit s 'x').map jsNumberNat
  (parts.getD 0 none, parts.getD 1 none)

/-- Model of: const [ws, hs] = s.split("x"); parseInt(ws, 10) and
parseInt(hs, 10). A missing piece parses to NaN (none). -/
def parseResInt (s : String) : Option Nat × Option Nat :=
  let parts := jsSplit s 'x'
  (jsParseInt (parts.getD 0 ""), jsParseInt (parts.getD 1 ""))

/-- Comparison v > n where v may be NaN: every comparison against NaN
is false in JS. -/
def jsOptGtNat (v : Option Nat) (n : Nat) : Bool :=
  match v with
  | some v => n < v
  | none => false

/-- Timeout estimator from lib/videoAnalysis (also duplicated in the
SingleThreadedTranscoder component). Source:
segmentLength = duration * 0.005, scaleFactor = outputPixels over
inputPixels, expectedSeconds = segmentLength * max 1 scaleFactor,
result = expectedSeconds * (8 if single-threaded else 4) * 1000.
There is no floor or ceiling clamp in this variant. none models a
NaN or Infinity result (unparsable resolution, or zero input pixel
count making the JS division non-finite). -/
def calcTimeoutPerHalfPercent (analysis : VideoAnalysis)
    (settings : OutputSettings) (isSingleThread : Bool) : Option ℚ :=
  let segmentLength : ℚ := analysis.duration * (5 / 1000)
  let inputPixels : Nat := analysis.inputWidth * analysis.inputHeight
  match parseResNum settings.resolution with
  | (some outW, some outH) =>
      if inputPixels = 0 then none
      else
        let scaleFactor : ℚ := ((outW * outH : Nat) : ℚ) / (inputPixels : ℚ)
        let expectedSeconds := segmentLength * max 1 scaleFactor
        some (if isSingleThread then expectedSeconds * 8 * 1000
              else expectedSeconds * 4 * 1000)
  | _ => none

/-- Model of the JS guard (outW * outH or 1) in the TranscoderDebug
variant of the estimator: a NaN or zero product becomes 1. -/
def jsPixelsOrOne : Option Nat × Option Nat → Nat
  | (some w, some h) => if w * h = 0 then 1 else w * h
  | _ => 1

/-- Timeout estimator variant defined inside TranscoderDebug.tsx
(the copy attached to the SingleThreadedTranscoder there). Source:
scaleRatio is inputPixels over outputPixels (inverted with respect to
the lib variant), complexityFactor = max 1 scaleRatio, timeoutMs =
segmentLength * complexityFactor * 8 * 1000, clamped into the range
10000 to 120000 ms. The guard on outputPixels keeps the division
finite, so this variant is total. -/
def calcTimeoutPerHalfPercentDebug (analysis : VideoAnalysis)
    (settings : OutputSettings) : ℚ :=
  let segmentLength : ℚ := analysis.duration * (5 / 1000)
  let inputPixels : ℚ := ((analysis.inputWidth * analysis.inputHeight : Nat) : ℚ)
  let outputPixels : ℚ := (jsPixelsOrOne (parseResNum settings.resolution) : ℚ)
  let scaleRat := inputPixels / outputPixels
  let complexityFactor := max 1 scaleRat
  let expectedSeconds := segmentLength * complexityFactor
  let timeoutMs := expectedSeconds * 8 * 1000
  max 10000 (min timeoutMs 120000)

/-- One entry of the resolution dropdown. -/
structure ResolutionOption where
  label : String
  width : ℤ
  height : Nat
  bitrate : Nat
deriving DecidableEq

/-- Body of the forEach loop in generateResolutionOptions: for one
standard height, the candidate width is Math.round(h * ar / 2) * 2
(even by construction); the option is pushed only when it does not
upscale, and its bitrate is auto-matched from the height. -/
def resolutionOptionFor (ar : ℚ) (inputWidth inputHeight : Nat)
    (h : Nat) : Option ResolutionOption :=
  let w : ℤ := jsRound ((h : ℚ) * ar / 2) * 2
  if h ≤ inputHeight ∧ w ≤ (inputWidth : ℤ) then
    some { label := jsIntToString w ++ "x" ++ jsNatToString h
           width := w
           height := h
           bitrate :=
             if h ≤ 360 then 800
             else if h ≤ 480 then 1200
             else if h ≤ 720 then 2500
             else 4500 }
  else none

/-- generateResolutionOptions from OutputSettingsMenu.tsx: the
standard heights 240 to 1080 filtered to downscaling-only options. -/
def generateResolutionOptions (ar : ℚ) (inputWidth inputHeight : Nat) :
    List ResolutionOption :=
  [240, 360, 480, 720, 1080].filterMap (resolutionOptionFor ar inputWidth inputHeight)

/-- The fields of a browser File object that FileInput reads. -/
structure JsFile where
  name : String
  type : String
  size : Nat
deriving DecidableEq

/-- handleFileChange from FileInput.tsx. Returns the pair
(argument passed to onFileSelected, final error state). The limit
1610612736 is 1.5 * 1024 * 1024 * 1024 bytes. -/
def handleFileChange (file : Option JsFile) : Option JsFile × Option String :=
  match file with
  | none => (none, none)
  | some f =>
      if !(jsStartsWith f.type "video/") then
        (none, some "Please select a video file.")
      else if 1610612736 < f.size then
        (none, some "File size must be less than 1.5 GB.")
      else
        (some f, none)

/-- generateFFmpegCommand from lib/videoAnalysis: the displayable
command string. The input name falls back to extension mp4. -/
def generateFFmpegCommand (fileName : String) (settings : OutputSettings) : String :=
  let args : List String :=
    ["-i", "input." ++ jsExtension fileName "mp4",
     "-c:v", "libx264",
     "-preset", "ultrafast",
     "-vf", "scale=" ++ jsReplaceFirst settings.resolution 'x' ':',
     "-r", jsNatToString settings.framerate,
     "-b:v", jsNatToString settings.bitrate ++ "k",
     "-c:a", "copy"]
    ++ (if settings.audioMono then ["-ac", "1"] else [])
    ++ ["output.mp4"]
  "ffmpeg " ++ joinSpace args

/-- The argument list actually passed to ffmpeg.exec by the transcode
functions (SingleThreadedTranscoder.tsx and Transcoder.tsx agree on
it). The input name falls back to extension tmp, unlike the display
command. -/
def transcodeArgs (fileName : String) (settings : OutputSettings) : List String :=
  ["-i", "input." ++ jsExtension fileName "tmp",
   "-c:v", "libx264",
   "-preset", "ultrafast",
   "-vf", "scale=" ++ jsReplaceFirst settings.resolution 'x' ':',
   "-r", jsNatToString settings.framerate,
   "-b:v", jsNatToString settings.bitrate ++ "k",
   "-c:a", "copy"]
  ++ (if settings.audioMono then ["-ac", "1"] else [])
  ++ ["output.mp4"]

/-
State machine for the multi-threaded Transcoder component of
Transcoder.tsx (the variant whose transcode function races
ffmpeg.exec against a setTimeout watchdog and whose progress handler
clears that timer). The component state hooks become record fields;
in addition the model counts the engine interface calls
(ffmpeg.writeFile and ffmpeg.exec) and records pending exec promises
in inFlight, since the claims speak about engine invocations. A run
is driven by a list of timed events; times are milliseconds. The
awaits inside transcode (fetchFile, writeFile) are treated as
completing immediately, so one start event performs the whole
synchronous prefix of transcode up to issuing exec.
-/

/-- Ternary multiplier from transcode: 8 for scale factors above 2.5,
6 above 1.5, else 4. -/
def processingMultiplier (scaleFactor : ℚ) : ℚ :=
  if 5 / 2 < scaleFactor then 8 else if 3 / 2 < scaleFactor then 6 else 4

/-- The watchdog budget from transcode: duration times multiplier in
ms plus a 120000 ms base, capped at 600000 ms. -/
def timeoutDuration (va : VideoAnalysis) : ℚ :=
  min (va.duration * processingMultiplier va.scaleFactor * 1000 + 120000) 600000

/-- The resolution-ceiling check at the top of transcode: width above
1920 or height above 1080, with NaN comparisons false. -/
def validationFails (settings : OutputSettings) : Bool :=
  jsOptGtNat (parseResInt settings.resolution).1 1920 ||
    jsOptGtNat (parseResInt settings.resolution).2 1080

/-- Component state of the Transcoder, with instrumentation fields:
timerDeadline is the absolute time at which the armed watchdog would
fire, engineWrites and engineInvokes count ffmpeg.writeFile and
ffmpeg.exec calls, inFlight lists issued exec calls not yet settled,
and timedOutEver records whether the watchdog callback ever ran. -/
structure TState where
  isLoaded : Bool
  isTranscoding : Bool
  progress : ℚ
  outputUrl : Option Nat
  error : Option String
  logMessages : List String
  videoAnalysis : Option VideoAnalysis
  timerDeadline : Option ℚ
  engineWrites : Nat
  engineInvokes : Nat
  inFlight : List Nat
  nextJobId : Nat
  timedOutEver : Bool

/-- Events driving a Transcoder run: a click on Start, a progress or
log event from the engine, or the settlement of an issued exec call
identified by its job id. -/
inductive TEvent where
  | startClick
  | progressEv (p : ℚ)
  | logEv (line : String)
  | execResolve (j : Nat)
  | execReject (j : Nat)

/-- The transcode function of the Transcoder, up to issuing exec:
guard on isLoaded, isTranscoding and videoAnalysis; reject oversize
resolutions before any engine call; otherwise reset the job state,
write the input into the engine, arm the watchdog for the full budget
and invoke the engine. -/
def transcode (settings : OutputSettings) (t : ℚ) (st : TState) : TState :=
  if !st.isLoaded || st.isTranscoding || st.videoAnalysis.isNone then st
  else if validationFails settings then
    { st with error := some "Maximum full HD resolution (1920x1080) supported only." }
  else
    match st.videoAnalysis with
    | none => st
    | some va =>
        { st with
          isTranscoding := true
          progress := 0
          outputUrl := none
          error := none
          logMessages := []
          engineWrites := st.engineWrites + 1
          timerDeadline := some (t + timeoutDuration va)
          engineInvokes := st.engineInvokes + 1
          inFlight := st.inFlight ++ [st.nextJobId]
          nextJobId := st.nextJobId + 1 }

/-- The progress handler registered in load: events inside the unit
interval update the progress bar and clear the watchdog timer; the
timer is not re-armed. Out-of-range events are ignored. -/
def progressHandler (p : ℚ) (st : TState) : TState :=
  if 0 ≤ p ∧ p ≤ 1 then
    { st with progress := p * 100, timerDeadline := none }
  else st

/-- The log handler registered in load: append the line. -/
def logHandler (line : String) (st : TState) : TState :=
  { st with logMessages := st.logMessages ++ [line] }

/-- Continuation of transcode after the awaited exec resolves: clear
the watchdog, read output.mp4 back and surface it as the output URL,
then clear isTranscoding. This continuation runs even if the watchdog
already fired, because nothing cancels the await. -/
def execResolveStep (j : Nat) (st : TState) : TState :=
  if j ∈ st.inFlight then
    { st with
      timerDeadline := none
      outputUrl := some j
      inFlight := st.inFlight.erase j
      isTranscoding := false }
  else st

/-- The catch branch of transcode when the awaited exec rejects:
clear the watchdog, set the failure message, clear isTranscoding. -/
def execRejectStep (j : Nat) (st : TState) : TState :=
  if j ∈ st.inFlight then
    { st with
      timerDeadline := none
      error := some "Transcoding failed. Try reducing video length or quality settings."
      inFlight := st.inFlight.erase j
      isTranscoding := false }
  else st

/-- The watchdog callback: when the armed deadline has been reached
by the time the event loop runs again, report the timeout and clear
isTranscoding. The abandoned exec call stays in inFlight. -/
def fireTimerIfDue (t : ℚ) (st : TState) : TState :=
  match st.timerDeadline with
  | some d =>
      if d ≤ t then
        { st with
          error := some "Processing timeout. Try a shorter video or lower quality settings."
          isTranscoding := false
          timerDeadline := none
          timedOutEver := true }
      else st
  | none => st

/-- One scheduler step: a due watchdog callback runs before the event
arriving at that time is handled. -/
def stepAt (settings : OutputSettings) (st : TState) (ev : ℚ × TEvent) : TState :=
  let st := fireTimerIfDue ev.1 st
  match ev.2 with
  | TEvent.startClick => transcode settings ev.1 st
  | TEvent.progressEv p => progressHandler p st
  | TEvent.logEv line => logHandler line st
  | TEvent.execResolve j => execResolveStep j st
  | TEvent.execReject j => execRejectStep j st

/-- Run a timed event list from a state. -/
def runTrace (settings : OutputSettings) (st : TState)
    (tr : List (ℚ × TEvent)) : TState :=
  tr.foldl (stepAt settings) st

/-- State after load succeeded and analyzeVideo produced va, before
any transcoding. -/
def loadedIdleState (va : VideoAnalysis) : TState :=
  { isLoaded := true
    isTranscoding := false
    progress := 0
    outputUrl := none
    error := none
    logMessages := []
    videoAnalysis := some va
    timerDeadline := none
    engineWrites := 0
    engineInvokes := 0
    inFlight := []
    nextJobId := 0
    timedOutEver := false }

/-
State for the SingleThreadedTranscoder component of
SingleThreadedTranscoder.tsx (the variant without a resolution check
in transcode; its watchdog is a separate effect and is not part of
this start step).
-/

/-- Component state of the SingleThreadedTranscoder with the same
engine instrumentation fields as TState. -/
structure STState where
  isLoaded : Bool
  isTranscoding : Bool
  progress : ℚ
  outputUrl : Option Nat
  error : Option String
  logMessages : List String
  videoAnalysis : Option VideoAnalysis
  engineWrites : Nat
  engineInvokes : Nat
  inFlight : List Nat
  nextJobId : Nat

/-- The transcode function of SingleThreadedTranscoder up to issuing
exec: guard on isLoaded, isTranscoding and videoAnalysis, then reset
the job state, write the input and invoke the engine. This variant
performs no resolution-ceiling validation; settings flow straight
into the engine argument list. -/
def stTranscode (settings : OutputSettings) (st : STState) : STState :=
  if !st.isLoaded || st.isTranscoding || st.videoAnalysis.isNone then st
  else
    { st with
      isTranscoding := true
      progress := 0
      outputUrl := none
      error := none
      logMessages := []
      engineWrites := st.engineWrites + 1
      engineInvokes := st.engineInvokes + 1
      inFlight := st.inFlight ++ [st.nextJobId]
      nextJobId := st.nextJobId + 1 }

/-- Loaded idle state of the SingleThreadedTranscoder. -/
def stLoadedIdleState (va : VideoAnalysis) : STState :=
  { isLoaded := true
    isTranscoding := false
    progress := 0
    outputUrl := none
    error := none
    logMessages := []
    videoAnalysis := some va
    engineWrites := 0
    engineInvokes := 0
    inFlight := []
    nextJobId := 0 }

/-
Model of the diagnostic batch runner runDebugTest in
TranscoderDebug.tsx. Each loop iteration registers a fresh log
handler on the shared FFmpeg instance without removing the handlers
of earlier iterations, so during trial k the handlers of trials
0 to k all receive every emitted line. The engine behaviour of one
trial is abstracted as a script: the log lines emitted while its
exec runs and how the race of exec against the 45 second per-trial
timer settles. Wall-clock trial durations are real time and are not
modelled.
-/

/-- Trial status as in the DebugResult interface. -/
inductive TrialStatus where
  | pending
  | success
  | failed
  | timeout
deriving DecidableEq

/-- One entry of the debugResults state. -/
structure DebugResult where
  resolution : String
  status : TrialStatus
  logs : List String
deriving DecidableEq

/-- How the race of one exec call against the per-trial timer
settles: the exec resolves first, or a rejection wins carrying an
error message. The fixed 45 second timer rejecting first appears as
a rejection with message Timeout, as in the source. -/
inductive ExecOutcome where
  | resolves
  | rejects (msg : String)
deriving DecidableEq

/-- Status written by the loop body for an outcome: the catch branch
distinguishes the Timeout message, the success path writes success. -/
def statusOf : ExecOutcome → TrialStatus
  | ExecOutcome.resolves => TrialStatus.success
  | ExecOutcome.rejects msg =>
      if msg = "Timeout" then TrialStatus.timeout else TrialStatus.failed

/-- Logs of a trial entry right after its own loop iteration ends:
untouched on success, rewritten to the current logs plus an ERROR
line by the catch branch. -/
def trialOwnLogs (p : List String) : ExecOutcome → List String
  | ExecOutcome.resolves => p
  | ExecOutcome.rejects msg => p ++ ["ERROR: " ++ msg]

/-- Script of one trial: its configuration label, the log lines the
engine emits while the exec of this trial runs, and how the race
settles. -/
structure TrialScript where
  resolution : String
  logLines : List String
  outcome : ExecOutcome

/-- Delivery of one engine log line: every registered handler pushes
the line into its own currentLogs array and then rewrites the logs of
the debugResults entry whose resolution matches that handler. -/
def applyLogLine (hs : List (String × List String)) (rs : List DebugResult)
    (line : String) : List (String × List String) × List DebugResult :=
  let hs2 := hs.map fun h => (h.1, h.2 ++ [line])
  let rs2 := hs2.foldl
    (fun acc h => acc.map fun r =>
      if r.resolution = h.1 then { r with logs := h.2 } else r)
    rs
  (hs2, rs2)

/-- Accumulated state of one runDebugTest call: the registered log
handlers with their currentLogs arrays, the debugResults list, and
the engine call counters. -/
structure BatchState where
  handlers : List (String × List String)
  results : List DebugResult
  engineWrites : Nat
  engineInvokes : Nat

/-- Delivery of a whole sequence of log lines, one applyLogLine step
per line. -/
def lineFold (hs : List (String × List String)) (rs : List DebugResult) :
    List String → List (String × List String) × List DebugResult
  | [] => (hs, rs)
  | l :: t =>
      let p := applyLogLine hs rs l
      lineFold p.1 p.2 t

/-- One iteration of the runDebugTest loop: register a fresh log
handler (the earlier ones stay registered), run the exec while the
scripted lines arrive, then write the terminal status; the catch
branch also rewrites the logs from the currentLogs of this iteration
plus an ERROR line. -/
def runTrial (st : BatchState) (sc : TrialScript) : BatchState :=
  let hs0 := st.handlers ++ [(sc.resolution, [])]
  let p := lineFold hs0 st.results sc.logLines
  let current := (p.1.getLastD (sc.resolution, [])).2
  let rs2 :=
    match sc.outcome with
    | ExecOutcome.resolves =>
        p.2.map fun r =>
          if r.resolution = sc.resolution then { r with status := TrialStatus.success } else r
    | ExecOutcome.rejects msg =>
        p.2.map fun r =>
          if r.resolution = sc.resolution then
            { r with
              status := if msg = "Timeout" then TrialStatus.timeout else TrialStatus.failed
              logs := current ++ ["ERROR: " ++ msg] }
          else r
  { handlers := p.1
    results := rs2
    engineWrites := st.engineWrites
    engineInvokes := st.engineInvokes + 1 }

/-- runDebugTest after its guard: one writeFile of the shared input,
then the trials strictly in order, starting from all-pending results. -/
def runDebugTest (scripts : List TrialScript) : BatchState :=
  scripts.foldl runTrial
    { handlers := []
      results := scripts.map fun s =>
        { resolution := s.resolution, status := TrialStatus.pending, logs := [] }
      engineWrites := 1
      engineInvokes := 0 }

/-- runDebugTest including its entry guard: when the engine is not
loaded, no input is selected, or a batch is already running, the call
returns at once, leaving the previous results untouched and making no
engine call. -/
def runDebugTestGuarded (isLoaded hasInput isTesting : Bool)
    (scripts : List TrialScript) (prev : List DebugResult) : BatchState :=
  if !isLoaded || !hasInput || isTesting then
    { handlers := [], results := prev, engineWrites := 0, engineInvokes := 0 }
  else runDebugTest scripts

/-
Concrete values used by witnesses and counterexamples.
-/

/-- Probe result of a 1920 by 1080 input of 120 seconds targeted at
640 by 360, so the scale factor is 3 and the watchdog budget is
min of 120 * 8 * 1000 + 120000 and 600000, which is 600000 ms. -/
def vaDemo : VideoAnalysis :=
  { inputWidth := 1920
    inputHeight := 1080
    scaleFactor := 3
    duration := 120
    inputFramerate := 30 }

/-- The scenario settings from the spec: target 640x360, bitrate 800,
frame rate 24. -/
def settingsDemo : OutputSettings :=
  { resolution := "640x360", framerate := 24, bitrate := 800, audioMono := false }

/-- Oversize settings an ultrawide 2560 by 1080 input can produce
through the dropdown generator: width beyond the 1920 ceiling. -/
def settingsOversize : OutputSettings :=
  { resolution := "2560x1080", framerate := 20, bitrate := 4500, audioMono := false }

/-- A valid selected file. -/
def fileDemo : JsFile :=
  { name := "a.mp4", type := "video/mp4", size := 1000 }

/-- A Transcoder state with a transcode already running. -/
def busyDemo : TState :=
  { loadedIdleState vaDemo with isTranscoding := true }

/-
Theorems. Helper lemmas come first, then one theorem per claim with
its witness or counterexample.
-/

/-- Multiplying the linear estimator formula preserves order in the
duration argument when the complexity and tolerance factors are
nonnegative. -/
theorem estimatorChainMono (d₁ d₂ C k : ℚ) (hd : d₁ ≤ d₂) (hC : 0 ≤ C)
    (hk : 0 ≤ k) :
    d₁ * (5 / 1000) * C * k * 1000 ≤ d₂ * (5 / 1000) * C * k * 1000 := by
  have h1 : d₁ * (5 / 1000) ≤ d₂ * (5 / 1000) :=
    mul_le_mul_of_nonneg_right hd (by norm_num)
  have h2 := mul_le_mul_of_nonneg_right h1 hC
  have h3 := mul_le_mul_of_nonneg_right h2 hk
  exact mul_le_mul_of_nonneg_right h3 (by norm_num)

/-- C9: for every selected file, the file-input component forwards
the file to its caller if and only if the MIME type starts with
video/ and the size is at most 1.5 GiB; otherwise it sets an error
message and forwards null. -/
theorem c9_file_input_filter (f : JsFile) :
    ((handleFileChange (some f)).1 = some f ↔
      (jsStartsWith f.type "video/" = true ∧ f.size ≤ 1610612736)) ∧
    ((handleFileChange (some f)).1 = some f → (handleFileChange (some f)).2 = none) ∧
    ((handleFileChange (some f)).1 ≠ some f →
      (handleFileChange (some f)).1 = none ∧ (handleFileChange (some f)).2 ≠ none) := by
  by_cases hv : jsStartsWith f.type "video/" <;>
    by_cases hs : 1610612736 < f.size <;>
      simp [handleFileChange, hv, hs] <;> omega

/-- Witness for C9 at a valid video file. -/
theorem c9_file_input_filter_witness :
    (handleFileChange (some fileDemo)).1 = some fileDemo :=
  (c9_file_input_filter fileDemo).1.mpr (by decide)

/-- C10: every option of the dimension-aware generator has an even
width and never upscales. -/
theorem c10_resolution_options (ar : ℚ) (iw ih : Nat) (opt : ResolutionOption)
    (hmem : opt ∈ generateResolutionOptions ar iw ih) :
    Even opt.width ∧ opt.height ≤ ih ∧ opt.width ≤ (iw : ℤ) := by
  simp only [generateResolutionOptions, List.mem_filterMap] at hmem
  obtain ⟨h, _hh, heq⟩ := hmem
  simp only [resolutionOptionFor] at heq
  split at heq
  case isTrue hc =>
    injection heq with heq
    subst heq
    exact ⟨⟨jsRound ((h : ℚ) * ar / 2), by ring⟩, hc.1, hc.2⟩
  case isFalse => exact absurd heq (by simp)

/-- Witness for C10 at a square 1080 input with aspect ratio 2. -/
theorem c10_resolution_options_witness :
    Even (ResolutionOption.width ⟨"480x240", 480, 240, 800⟩) ∧
      (ResolutionOption.height ⟨"480x240", 480, 240, 800⟩) ≤ 1080 ∧
      (ResolutionOption.width ⟨"480x240", 480, 240, 800⟩) ≤ ((2160 : Nat) : ℤ) :=
  c10_resolution_options 2 2160 1080 ⟨"480x240", 480, 240, 800⟩ (by
    refine List.mem_filterMap.mpr ⟨240, by decide, ?_⟩
    norm_num [resolutionOptionFor, jsRound]
    decide)

/-- C4 amended: the TranscoderDebug estimator variant always returns
a budget inside its configured clamp range 10000 to 120000 ms and is
monotone non-decreasing in the probe duration; the lib estimator
variant is monotone non-decreasing in the probe duration whenever it
returns finite values, but carries no clamp. -/
theorem c4_estimator_amended :
    (∀ (a : VideoAnalysis) (s : OutputSettings),
        10000 ≤ calcTimeoutPerHalfPercentDebug a s ∧
          calcTimeoutPerHalfPercentDebug a s ≤ 120000) ∧
    (∀ (a : VideoAnalysis) (s : OutputSettings) (d₁ d₂ : ℚ), d₁ ≤ d₂ →
        calcTimeoutPerHalfPercentDebug { a with duration := d₁ } s ≤
          calcTimeoutPerHalfPercentDebug { a with duration := d₂ } s) ∧
    (∀ (a : VideoAnalysis) (s : OutputSettings) (m : Bool) (d₁ d₂ v₁ v₂ : ℚ),
        d₁ ≤ d₂ →
        calcTimeoutPerHalfPercent { a with duration := d₁ } s m = some v₁ →
        calcTimeoutPerHalfPercent { a with duration := d₂ } s m = some v₂ →
        v₁ ≤ v₂) := by
  refine ⟨?_, ?_, ?_⟩
  · intro a s
    simp only [calcTimeoutPerHalfPercentDebug]
    constructor
    · exact le_max_left _ _
    · exact max_le (by norm_num) (min_le_right _ _)
  · intro a s d₁ d₂ hd
    simp only [calcTimeoutPerHalfPercentDebug]
    have hC : (0 : ℚ) ≤
        max 1 (((a.inputWidth * a.inputHeight : Nat) : ℚ) /
          ((jsPixelsOrOne (parseResNum s.resolution) : Nat) : ℚ)) :=
      le_trans zero_le_one (le_max_left _ _)
    exact max_le_max (le_refl _)
      (min_le_min (estimatorChainMono d₁ d₂ _ 8 hd hC (by norm_num)) (le_refl _))
  · intro a s m d₁ d₂ v₁ v₂ hd h₁ h₂
    simp only [calcTimeoutPerHalfPercent] at h₁ h₂
    rcases hpr : parseResNum s.resolution with ⟨ow, oh⟩
    rw [hpr] at h₁ h₂
    match ow, oh with
    | none, none => simp at h₁
    | none, some _ => simp at h₁
    | some _, none => simp at h₁
    | some w, some hgt =>
      by_cases hz : a.inputWidth * a.inputHeight = 0
      · simp only [hz, if_pos rfl] at h₁
        simp at h₁
      · simp only [if_neg hz] at h₁ h₂
        have hC : (0 : ℚ) ≤
            max 1 (((w * hgt : Nat) : ℚ) / ((a.inputWidth * a.inputHeight : Nat) : ℚ)) :=
          le_trans zero_le_one (le_max_left _ _)
        cases m
        · simp only [Bool.false_eq_true, if_false, Option.some.injEq] at h₁ h₂
          rw [← h₁, ← h₂]
          exact estimatorChainMono d₁ d₂ _ 4 hd hC (by norm_num)
        · simp only [if_true, Option.some.injEq] at h₁ h₂
          rw [← h₁, ← h₂]
          exact estimatorChainMono d₁ d₂ _ 8 hd hC (by norm_num)

/-- Witness for C4 at the demo probe with durations 120 and 240. -/
theorem c4_estimator_amended_witness :
    calcTimeoutPerHalfPercentDebug { vaDemo with duration := 120 } settingsDemo ≤
      calcTimeoutPerHalfPercentDebug { vaDemo with duration := 240 } settingsDemo ∧
    (2400 : ℚ) ≤ 4800 := by
  have hp : parseResNum "640x360" = (some 640, some 360) := by decide
  refine ⟨c4_estimator_amended.2.1 vaDemo settingsDemo 120 240 (by norm_num),
    c4_estimator_amended.2.2 vaDemo settingsDemo false 120 240 2400 4800
      (by norm_num) ?_ ?_⟩
  · norm_num [calcTimeoutPerHalfPercent, hp, vaDemo, settingsDemo]
  · norm_num [calcTimeoutPerHalfPercent, hp, vaDemo, settingsDemo]

/-- Counterexample to C4 as stated: at a ten-hour probe the lib
estimator returns 720000 ms, above both the 120000 ms clamp ceiling
configured in the debug variant and the 600000 ms hard cap used
elsewhere, so the returned budget does not lie in any configured
floor-to-ceiling range. -/
theorem c4_unclamped_counterexample :
    calcTimeoutPerHalfPercent ⟨1920, 1080, 3, 36000, 30⟩ settingsDemo false =
      some 720000 ∧
    ¬ ((720000 : ℚ) ≤ 120000) ∧ ¬ ((720000 : ℚ) ≤ 600000) := by
  have hp : parseResNum "640x360" = (some 640, some 360) := by decide
  refine ⟨?_, by norm_num, by norm_num⟩
  norm_num [calcTimeoutPerHalfPercent, hp, settingsDemo]

/-- C5 amended: on the spec scenario the lib estimator computes
complexity max 1 of (640 * 360) / (1920 * 1080) = 1 and
expectedSeconds = 120 * 0.005 * 1 = 0.6 s as claimed, but the
returned budget is 2400 ms in multi-threaded mode and 4800 ms in
single-threaded mode with no floor applied; the debug variant
instead computes the inverted ratio and returns 43200 ms, strictly
inside its clamp range rather than at the floor. -/
theorem c5_scenario_amended :
    max 1 ((640 * 360 : ℚ) / (1920 * 1080)) = 1 ∧
    (120 : ℚ) * (5 / 1000) * max 1 ((640 * 360 : ℚ) / (1920 * 1080)) = 3 / 5 ∧
    calcTimeoutPerHalfPercent vaDemo settingsDemo false = some 2400 ∧
    calcTimeoutPerHalfPercent vaDemo settingsDemo true = some 4800 ∧
    calcTimeoutPerHalfPercentDebug vaDemo settingsDemo = 43200 := by
  have hp : parseResNum "640x360" = (some 640, some 360) := by decide
  refine ⟨by norm_num, by norm_num, ?_, ?_, ?_⟩
  · norm_num [calcTimeoutPerHalfPercent, hp, vaDemo, settingsDemo]
  · norm_num [calcTimeoutPerHalfPercent, hp, vaDemo, settingsDemo]
  · norm_num [calcTimeoutPerHalfPercentDebug, hp, jsPixelsOrOne, vaDemo, settingsDemo]

/-- Counterexample to C5 as stated: on the scenario the lib estimator
returns 2400 ms, strictly below the only configured floor in the
code, the 10000 ms floor of the debug clamp, so the budget does not
equal a configured floor; the debug variant returns 43200 ms, which
is not its floor either. -/
theorem c5_no_floor_counterexample :
    calcTimeoutPerHalfPercent vaDemo settingsDemo false = some 2400 ∧
    (2400 : ℚ) < 10000 ∧
    calcTimeoutPerHalfPercentDebug vaDemo settingsDemo = 43200 ∧
    (43200 : ℚ) ≠ 10000 := by
  have hp : parseResNum "640x360" = (some 640, some 360) := by decide
  refine ⟨?_, by norm_num, ?_, by norm_num⟩
  · norm_num [calcTimeoutPerHalfPercent, hp, vaDemo, settingsDemo]
  · norm_num [calcTimeoutPerHalfPercentDebug, hp, jsPixelsOrOne, vaDemo, settingsDemo]

/-- C8 amended: whenever the final dot-separated segment of the file
name is non-empty, the displayed command equals the space-joined
engine argument list prefixed with ffmpeg; when that segment is
empty the display falls back to extension mp4 while the engine argv
falls back to tmp, and the two differ. -/
theorem c8_display_command_amended (fileName : String)
    (settings : OutputSettings) (h : jsLastSegment fileName '.' ≠ "") :
    generateFFmpegCommand fileName settings =
      "ffmpeg " ++ joinSpace (transcodeArgs fileName settings) := by
  simp only [generateFFmpegCommand, transcodeArgs, jsExtension, if_neg h]

/-- Witness for C8 at a name with a proper extension. -/
theorem c8_display_command_amended_witness :
    generateFFmpegCommand "clip.mov" settingsDemo =
      "ffmpeg " ++ joinSpace (transcodeArgs "clip.mov" settingsDemo) :=
  c8_display_command_amended "clip.mov" settingsDemo (by decide)

/-- Counterexample to C8 as stated: for a file name ending in a dot
the displayed command and the engine argument list disagree on the
input file name. -/
theorem c8_extension_fallback_counterexample :
    generateFFmpegCommand "movie." settingsDemo ≠
      "ffmpeg " ++ joinSpace (transcodeArgs "movie." settingsDemo) := by
  decide

/-- Progress events processed from a state with no armed watchdog
leave the watchdog disarmed and do not change the timeout flag, the
output, the pending exec calls or the transcoding flag. -/
theorem progressRunPreserves (settings : OutputSettings) (qs : List (ℚ × ℚ)) :
    ∀ st : TState, st.timerDeadline = none →
      (runTrace settings st (qs.map fun q => (q.1, TEvent.progressEv q.2))).timerDeadline = none ∧
      (runTrace settings st (qs.map fun q => (q.1, TEvent.progressEv q.2))).timedOutEver = st.timedOutEver ∧
      (runTrace settings st (qs.map fun q => (q.1, TEvent.progressEv q.2))).outputUrl = st.outputUrl ∧
      (runTrace settings st (qs.map fun q => (q.1, TEvent.progressEv q.2))).inFlight = st.inFlight ∧
      (runTrace settings st (qs.map fun q => (q.1, TEvent.progressEv q.2))).isTranscoding = st.isTranscoding := by
  induction qs with
  | nil =>
      intro st h
      exact ⟨h, rfl, rfl, rfl, rfl⟩
  | cons q t ih =>
      intro st h
      have hstep :
          (stepAt settings st (q.1, TEvent.progressEv q.2)).timerDeadline = none ∧
          (stepAt settings st (q.1, TEvent.progressEv q.2)).timedOutEver = st.timedOutEver ∧
          (stepAt settings st (q.1, TEvent.progressEv q.2)).outputUrl = st.outputUrl ∧
          (stepAt settings st (q.1, TEvent.progressEv q.2)).inFlight = st.inFlight ∧
          (stepAt settings st (q.1, TEvent.progressEv q.2)).isTranscoding = st.isTranscoding := by
        simp only [stepAt, fireTimerIfDue, h, progressHandler]
        split_ifs <;> simp [h]
      obtain ⟨hd, hte, hou, hif, hit⟩ := hstep
      obtain ⟨m1, m2, m3, m4, m5⟩ :=
        ih (stepAt settings st (q.1, TEvent.progressEv q.2)) hd
      simp only [runTrace, List.map_cons, List.foldl_cons] at m1 m2 m3 m4 m5 ⊢
      exact ⟨m1, m2.trans hte, m3.trans hou, m4.trans hif, m5.trans hit⟩

/-- Settlement of the pending exec call from a state whose watchdog
is disarmed: the output is surfaced and the run ends, with the
timeout flag untouched. -/
theorem stepExecResolveFields (settings : OutputSettings) (T : ℚ) (st : TState)
    (hd : st.timerDeadline = none) (hf : st.inFlight = [0]) :
    (stepAt settings st (T, TEvent.execResolve 0)).timedOutEver = st.timedOutEver ∧
    (stepAt settings st (T, TEvent.execResolve 0)).outputUrl = some 0 ∧
    (stepAt settings st (T, TEvent.execResolve 0)).timerDeadline = none ∧
    (stepAt settings st (T, TEvent.execResolve 0)).isTranscoding = false := by
  simp [stepAt, fireTimerIfDue, hd, execResolveStep, hf]

/-- C1 amended: in the Transcoder the watchdog is armed for the full
budget when transcode issues the engine call, and every progress
event with magnitude in the unit interval, zero included, clears the
timer permanently rather than re-arming it; consequently a job whose
engine call emits at least one in-range progress event before the
budget elapses reaches the success state when its exec resolves and
never times out, regardless of total elapsed time. -/
theorem c1_watchdog_amended (va : VideoAnalysis) (settings : OutputSettings)
    (t₁ T p₁ : ℚ) (rest : List (ℚ × ℚ))
    (hval : validationFails settings = false)
    (hp0 : 0 ≤ p₁) (hp1 : p₁ ≤ 1) (ht : t₁ < timeoutDuration va) :
    (runTrace settings (loadedIdleState va) [(0, TEvent.startClick)]).timerDeadline =
      some (timeoutDuration va) ∧
    ((runTrace settings (loadedIdleState va)
        ((0, TEvent.startClick) :: (t₁, TEvent.progressEv p₁) ::
          ((rest.map fun q => (q.1, TEvent.progressEv q.2)) ++
            [(T, TEvent.execResolve 0)]))).timedOutEver = false ∧
     (runTrace settings (loadedIdleState va)
        ((0, TEvent.startClick) :: (t₁, TEvent.progressEv p₁) ::
          ((rest.map fun q => (q.1, TEvent.progressEv q.2)) ++
            [(T, TEvent.execResolve 0)]))).outputUrl = some 0 ∧
     (runTrace settings (loadedIdleState va)
        ((0, TEvent.startClick) :: (t₁, TEvent.progressEv p₁) ::
          ((rest.map fun q => (q.1, TEvent.progressEv q.2)) ++
            [(T, TEvent.execResolve 0)]))).timerDeadline = none ∧
     (runTrace settings (loadedIdleState va)
        ((0, TEvent.startClick) :: (t₁, TEvent.progressEv p₁) ::
          ((rest.map fun q => (q.1, TEvent.progressEv q.2)) ++
            [(T, TEvent.execResolve 0)]))).isTranscoding = false) := by
  have hnf : ¬ (timeoutDuration va ≤ t₁) := not_le.mpr ht
  have hrun2 : runTrace settings (loadedIdleState va)
      [(0, TEvent.startClick), (t₁, TEvent.progressEv p₁)] =
      { isLoaded := true
        isTranscoding := true
        progress := p₁ * 100
        outputUrl := none
        error := none
        logMessages := []
        videoAnalysis := some va
        timerDeadline := none
        engineWrites := 1
        engineInvokes := 1
        inFlight := [0]
        nextJobId := 1
        timedOutEver := false } := by
    simp [runTrace, stepAt, fireTimerIfDue, loadedIdleState, transcode, hval, hnf,
      progressHandler, hp0, hp1]
  constructor
  · simp [runTrace, stepAt, fireTimerIfDue, loadedIdleState, transcode, hval]
  · have hshape : runTrace settings (loadedIdleState va)
        ((0, TEvent.startClick) :: (t₁, TEvent.progressEv p₁) ::
          ((rest.map fun q => (q.1, TEvent.progressEv q.2)) ++
            [(T, TEvent.execResolve 0)])) =
        runTrace settings
          (runTrace settings
            (runTrace settings (loadedIdleState va)
              [(0, TEvent.startClick), (t₁, TEvent.progressEv p₁)])
            (rest.map fun q => (q.1, TEvent.progressEv q.2)))
          [(T, TEvent.execResolve 0)] := by
      simp only [runTrace, List.foldl_cons, List.foldl_nil, List.foldl_append]
    rw [hshape, hrun2]
    obtain ⟨m1, m2, m3, m4, m5⟩ := progressRunPreserves settings rest
      { isLoaded := true
        isTranscoding := true
        progress := p₁ * 100
        outputUrl := none
        error := none
        logMessages := []
        videoAnalysis := some va
        timerDeadline := none
        engineWrites := 1
        engineInvokes := 1
        inFlight := [0]
        nextJobId := 1
        timedOutEver := false } rfl
    obtain ⟨f1, f2, f3, f4⟩ := stepExecResolveFields settings T _ m1 (m4.trans rfl)
    refine ⟨?_, ?_, ?_, ?_⟩
    · simpa [runTrace, List.foldl_cons, List.foldl_nil] using f1.trans (m2.trans rfl)
    · simpa [runTrace, List.foldl_cons, List.foldl_nil] using f2
    · simpa [runTrace, List.foldl_cons, List.foldl_nil] using f3
    · simpa [runTrace, List.foldl_cons, List.foldl_nil] using f4

/-- Witness for C1 at the demo job: one progress event of one half at
1 ms, exec resolving at 1000000 ms, far beyond the 600000 ms budget. -/
theorem c1_watchdog_amended_witness :
    (runTrace settingsDemo (loadedIdleState vaDemo)
      [(0, TEvent.startClick)]).timerDeadline = some (timeoutDuration vaDemo) ∧
    ((runTrace settingsDemo (loadedIdleState vaDemo)
        ((0, TEvent.startClick) :: ((1 : ℚ), TEvent.progressEv (1 / 2)) ::
          ((([] : List (ℚ × ℚ)).map fun q => (q.1, TEvent.progressEv q.2)) ++
            [((1000000 : ℚ), TEvent.execResolve 0)]))).timedOutEver = false ∧
     (runTrace settingsDemo (loadedIdleState vaDemo)
        ((0, TEvent.startClick) :: ((1 : ℚ), TEvent.progressEv (1 / 2)) ::
          ((([] : List (ℚ × ℚ)).map fun q => (q.1, TEvent.progressEv q.2)) ++
            [((1000000 : ℚ), TEvent.execResolve 0)]))).outputUrl = some 0 ∧
     (runTrace settingsDemo (loadedIdleState vaDemo)
        ((0, TEvent.startClick) :: ((1 : ℚ), TEvent.progressEv (1 / 2)) ::
          ((([] : List (ℚ × ℚ)).map fun q => (q.1, TEvent.progressEv q.2)) ++
            [((1000000 : ℚ), TEvent.execResolve 0)]))).timerDeadline = none ∧
     (runTrace settingsDemo (loadedIdleState vaDemo)
        ((0, TEvent.startClick) :: ((1 : ℚ), TEvent.progressEv (1 / 2)) ::
          ((([] : List (ℚ × ℚ)).map fun q => (q.1, TEvent.progressEv q.2)) ++
            [((1000000 : ℚ), TEvent.execResolve 0)]))).isTranscoding = false) :=
  c1_watchdog_amended vaDemo settingsDemo 1 1000000 (1 / 2) []
    (by decide) (by norm_num) (by norm_num)
    (by norm_num [timeoutDuration, processingMultiplier, vaDemo])

/-- Counterexample to C1 as stated: the two runs below differ only in
one progress event of magnitude zero before the deadline; without it
the watchdog fires, with it the watchdog never fires and the job
succeeds after the budget has long elapsed. A zero-magnitude event
therefore does reset the watchdog, contradicting the claim that only
strictly positive events do. -/
theorem c1_zero_progress_counterexample :
    (runTrace settingsDemo (loadedIdleState vaDemo)
      [(0, TEvent.startClick), (800000, TEvent.execResolve 0)]).timedOutEver = true ∧
    (runTrace settingsDemo (loadedIdleState vaDemo)
      [(0, TEvent.startClick), (1, TEvent.progressEv 0),
       (800000, TEvent.execResolve 0)]).timedOutEver = false ∧
    (runTrace settingsDemo (loadedIdleState vaDemo)
      [(0, TEvent.startClick), (1, TEvent.progressEv 0),
       (800000, TEvent.execResolve 0)]).outputUrl = some 0 := by
  have hb : timeoutDuration vaDemo = 600000 := by
    norm_num [timeoutDuration, processingMultiplier, vaDemo]
  have hv : validationFails settingsDemo = false := by decide
  simp only [runTrace, List.foldl, stepAt, fireTimerIfDue, loadedIdleState, transcode,
    hv, hb, progressHandler, execResolveStep]
  norm_num

/-- C2: evaluation of the code at the failing trace. The job starts
at time 0 with a 600000 ms budget, the engine emits nothing, the
watchdog fires and reports the timeout, and the abandoned exec call
resolves at 700000 ms; its continuation still runs, so the output
artifact is surfaced next to the reported timeout, a visible state
change after the timeout was reported. -/
theorem c2_late_result_surfaced :
    (runTrace settingsDemo (loadedIdleState vaDemo)
      [(0, TEvent.startClick), (700000, TEvent.execResolve 0)]).timedOutEver = true ∧
    (runTrace settingsDemo (loadedIdleState vaDemo)
      [(0, TEvent.startClick), (700000, TEvent.execResolve 0)]).outputUrl = some 0 ∧
    (runTrace settingsDemo (loadedIdleState vaDemo)
      [(0, TEvent.startClick), (700000, TEvent.execResolve 0)]).error =
      some "Processing timeout. Try a shorter video or lower quality settings." := by
  have hb : timeoutDuration vaDemo = 600000 := by
    norm_num [timeoutDuration, processingMultiplier, vaDemo]
  have hv : validationFails settingsDemo = false := by decide
  simp only [runTrace, List.foldl, stepAt, fireTimerIfDue, loadedIdleState, transcode,
    hv, hb, progressHandler, execResolveStep]
  norm_num

/-- C3 amended: in the multi-threaded Transcoder a start with parsed
target width above 1920 or height above 1080 terminates immediately
with the validation error message and no engine write or invoke; the
SingleThreadedTranscoder variant performs no such validation. -/
theorem c3_validation_amended (settings : OutputSettings) (va : VideoAnalysis)
    (w h : Nat) (hparse : parseResInt settings.resolution = (some w, some h))
    (hover : 1920 < w ∨ 1080 < h) :
    (runTrace settings (loadedIdleState va) [(0, TEvent.startClick)]).engineWrites = 0 ∧
    (runTrace settings (loadedIdleState va) [(0, TEvent.startClick)]).engineInvokes = 0 ∧
    (runTrace settings (loadedIdleState va) [(0, TEvent.startClick)]).isTranscoding = false ∧
    (runTrace settings (loadedIdleState va) [(0, TEvent.startClick)]).error =
      some "Maximum full HD resolution (1920x1080) supported only." := by
  have hval : validationFails settings = true := by
    simp only [validationFails, hparse, jsOptGtNat]
    rcases hover with h1 | h1
    · simp [h1]
    · simp [h1]
  simp [runTrace, stepAt, fireTimerIfDue, loadedIdleState, transcode, hval]

/-- Witness for C3 at the oversize ultrawide settings. -/
theorem c3_validation_amended_witness :
    (runTrace settingsOversize (loadedIdleState vaDemo) [(0, TEvent.startClick)]).engineWrites = 0 ∧
    (runTrace settingsOversize (loadedIdleState vaDemo) [(0, TEvent.startClick)]).engineInvokes = 0 ∧
    (runTrace settingsOversize (loadedIdleState vaDemo) [(0, TEvent.startClick)]).isTranscoding = false ∧
    (runTrace settingsOversize (loadedIdleState vaDemo) [(0, TEvent.startClick)]).error =
      some "Maximum full HD resolution (1920x1080) supported only." :=
  c3_validation_amended settingsOversize vaDemo 2560 1080 (by decide)
    (Or.inl (by norm_num))

/-- Counterexample to C3 as stated: the SingleThreadedTranscoder
variant starts a job with a parsed width of 2560, beyond the 1920
ceiling, yet writes the input into the engine and invokes it, with
no validation error. -/
theorem c3_singlethreaded_no_validation :
    (stTranscode settingsOversize (stLoadedIdleState vaDemo)).engineWrites = 1 ∧
    (stTranscode settingsOversize (stLoadedIdleState vaDemo)).engineInvokes = 1 ∧
    (stTranscode settingsOversize (stLoadedIdleState vaDemo)).error = none ∧
    parseResInt settingsOversize.resolution = (some 2560, some 1080) := by
  decide

/-- C7 amended: a second start issued while the running flag is set
returns without any state change or engine call, in both the
Transcoder and the diagnostic runner; the flag is however not a
reliable proxy for an engine call being in flight, see the
counterexample. -/
theorem c7_serialization_amended :
    (∀ (settings : OutputSettings) (t : ℚ) (st : TState),
        st.isTranscoding = true → transcode settings t st = st) ∧
    (∀ (engineLoaded hasInput : Bool) (scripts : List TrialScript)
        (prev : List DebugResult),
        (runDebugTestGuarded engineLoaded hasInput true scripts prev).results = prev ∧
        (runDebugTestGuarded engineLoaded hasInput true scripts prev).engineWrites = 0 ∧
        (runDebugTestGuarded engineLoaded hasInput true scripts prev).engineInvokes = 0) := by
  constructor
  · intro settings t st h
    simp [transcode, h]
  · intro engineLoaded hasInput scripts prev
    simp [runDebugTestGuarded]

/-- Witness for C7 at a busy Transcoder state. -/
theorem c7_serialization_amended_witness :
    transcode settingsDemo 5 busyDemo = busyDemo :=
  c7_serialization_amended.1 settingsDemo 5 busyDemo rfl

/-- Counterexample to C7 as stated: after the watchdog fires, the
running flag is already cleared while the abandoned exec call is
still pending, so a second start passes the guard and issues a
second engine invocation; two exec calls are then in flight at
once. -/
theorem c7_double_invocation_counterexample :
    (runTrace settingsDemo (loadedIdleState vaDemo)
      [(0, TEvent.startClick), (600001, TEvent.startClick)]).inFlight = [0, 1] ∧
    (runTrace settingsDemo (loadedIdleState vaDemo)
      [(0, TEvent.startClick), (600001, TEvent.startClick)]).engineInvokes = 2 ∧
    (runTrace settingsDemo (loadedIdleState vaDemo)
      [(0, TEvent.startClick), (600001, TEvent.startClick)]).timedOutEver = true := by
  have hb : timeoutDuration vaDemo = 600000 := by
    norm_num [timeoutDuration, processingMultiplier, vaDemo]
  have hv : validationFails settingsDemo = false := by decide
  simp only [runTrace, List.foldl, stepAt, fireTimerIfDue, loadedIdleState, transcode,
    hv, hb, progressHandler, execResolveStep]
  norm_num

/-- Delivery of log lines with one registered handler whose results
entry is in sync with it: the handler and its entry accumulate the
lines; entries of other labels are untouched. -/
theorem lineFoldOneHandler (a b c : String) (hba : b ≠ a) (hca : c ≠ a)
    (ls : List String) (p lb0 lc0 : List String) (sa sb sc : TrialStatus) :
    lineFold [(a, p)] [⟨a, sa, p⟩, ⟨b, sb, lb0⟩, ⟨c, sc, lc0⟩] ls =
      ([(a, p ++ ls)], [⟨a, sa, p ++ ls⟩, ⟨b, sb, lb0⟩, ⟨c, sc, lc0⟩]) := by
  induction ls generalizing p with
  | nil => simp [lineFold]
  | cons l t ih =>
      have hstep : applyLogLine [(a, p)] [⟨a, sa, p⟩, ⟨b, sb, lb0⟩, ⟨c, sc, lc0⟩] l =
          ([(a, p ++ [l])], [⟨a, sa, p ++ [l]⟩, ⟨b, sb, lb0⟩, ⟨c, sc, lc0⟩]) := by
        simp [applyLogLine, hba, hca]
      simp only [lineFold, hstep]
      rw [ih (p ++ [l])]
      simp

/-- Delivery of log lines with two registered handlers, both in sync
with their entries: both accumulate every line, so the earlier
handler keeps receiving lines of the later trial. -/
theorem lineFoldTwoHandlers (a b c : String) (hba : b ≠ a) (hca : c ≠ a)
    (hab : a ≠ b) (hcb : c ≠ b)
    (ls : List String) (pa pb lc0 : List String) (sa sb sc : TrialStatus) :
    lineFold [(a, pa), (b, pb)] [⟨a, sa, pa⟩, ⟨b, sb, pb⟩, ⟨c, sc, lc0⟩] ls =
      ([(a, pa ++ ls), (b, pb ++ ls)],
       [⟨a, sa, pa ++ ls⟩, ⟨b, sb, pb ++ ls⟩, ⟨c, sc, lc0⟩]) := by
  induction ls generalizing pa pb with
  | nil => simp [lineFold]
  | cons l t ih =>
      have hstep : applyLogLine [(a, pa), (b, pb)]
          [⟨a, sa, pa⟩, ⟨b, sb, pb⟩, ⟨c, sc, lc0⟩] l =
          ([(a, pa ++ [l]), (b, pb ++ [l])],
           [⟨a, sa, pa ++ [l]⟩, ⟨b, sb, pb ++ [l]⟩, ⟨c, sc, lc0⟩]) := by
        simp [applyLogLine, hba, hca, hab, hcb]
      simp only [lineFold, hstep]
      rw [ih (pa ++ [l]) (pb ++ [l])]
      simp

/-- Delivery of log lines with three registered handlers; the middle
entry may be out of sync with its handler (after a failed trial its
logs carry an extra ERROR line), in which case the first delivered
line overwrites it with the handler view. -/
theorem lineFoldThreeHandlers (a b c : String) (hba : b ≠ a) (hca : c ≠ a)
    (hab : a ≠ b) (hcb : c ≠ b) (hac : a ≠ c) (hbc : b ≠ c)
    (ls : List String) (pa pb pc q : List String) (sa sb sc : TrialStatus) :
    lineFold [(a, pa), (b, pb), (c, pc)] [⟨a, sa, pa⟩, ⟨b, sb, q⟩, ⟨c, sc, pc⟩] ls =
      ([(a, pa ++ ls), (b, pb ++ ls), (c, pc ++ ls)],
       [⟨a, sa, pa ++ ls⟩, ⟨b, sb, if ls.isEmpty then q else pb ++ ls⟩,
        ⟨c, sc, pc ++ ls⟩]) := by
  induction ls generalizing pa pb pc q with
  | nil => simp [lineFold]
  | cons l t ih =>
      have hstep : applyLogLine [(a, pa), (b, pb), (c, pc)]
          [⟨a, sa, pa⟩, ⟨b, sb, q⟩, ⟨c, sc, pc⟩] l =
          ([(a, pa ++ [l]), (b, pb ++ [l]), (c, pc ++ [l])],
           [⟨a, sa, pa ++ [l]⟩, ⟨b, sb, pb ++ [l]⟩, ⟨c, sc, pc ++ [l]⟩]) := by
        simp [applyLogLine, hba, hca, hab, hcb, hac, hbc]
      simp only [lineFold, hstep]
      rw [ih (pa ++ [l]) (pb ++ [l]) (pc ++ [l])]
      cases t <;> simp

/-- C6 amended: a three-trial batch runs its configurations strictly
in order and each trial status depends only on the outcome of that
same trial, so a failure of the middle trial does not change the
other outcomes; the log lists are however not isolated: because each
loop iteration registers one more handler without removing the
earlier ones, the final log list of a trial is the concatenation of
the lines of its own trial and of every later trial. -/
theorem c6_batch_amended (a b c : String) (la lb lc : List String)
    (ob : ExecOutcome) (hab : a ≠ b) (hac : a ≠ c) (hbc : b ≠ c)
    (out : BatchState)
    (hout : out = runDebugTest
      [⟨a, la, ExecOutcome.resolves⟩, ⟨b, lb, ob⟩, ⟨c, lc, ExecOutcome.resolves⟩]) :
    out.results.map DebugResult.resolution = [a, b, c] ∧
    out.results.map DebugResult.status =
      [TrialStatus.success, statusOf ob, TrialStatus.success] ∧
    (out.results.getD 0 ⟨"", TrialStatus.pending, []⟩).logs = la ++ lb ++ lc ∧
    (out.results.getD 2 ⟨"", TrialStatus.pending, []⟩).logs = lc ∧
    (ob = ExecOutcome.resolves →
      (out.results.getD 1 ⟨"", TrialStatus.pending, []⟩).logs = lb ++ lc) := by
  have hba : b ≠ a := hab.symm
  have hca : c ≠ a := hac.symm
  have hcb : c ≠ b := hbc.symm
  have h1 : runTrial
      ⟨[], [⟨a, TrialStatus.pending, []⟩, ⟨b, TrialStatus.pending, []⟩,
            ⟨c, TrialStatus.pending, []⟩], 1, 0⟩
      ⟨a, la, ExecOutcome.resolves⟩ =
      ⟨[(a, la)], [⟨a, TrialStatus.success, la⟩, ⟨b, TrialStatus.pending, []⟩,
        ⟨c, TrialStatus.pending, []⟩], 1, 1⟩ := by
    simp only [runTrial, List.nil_append]
    rw [lineFoldOneHandler a b c hba hca la [] [] [] TrialStatus.pending
      TrialStatus.pending TrialStatus.pending]
    simp [hba, hca]
  have h2 : runTrial
      ⟨[(a, la)], [⟨a, TrialStatus.success, la⟩, ⟨b, TrialStatus.pending, []⟩,
        ⟨c, TrialStatus.pending, []⟩], 1, 1⟩
      ⟨b, lb, ob⟩ =
      ⟨[(a, la ++ lb), (b, lb)],
       [⟨a, TrialStatus.success, la ++ lb⟩,
        ⟨b, statusOf ob, trialOwnLogs lb ob⟩,
        ⟨c, TrialStatus.pending, []⟩], 1, 2⟩ := by
    simp only [runTrial, List.cons_append, List.nil_append]
    rw [lineFoldTwoHandlers a b c hba hca hab hcb lb la [] [] TrialStatus.success
      TrialStatus.pending TrialStatus.pending]
    cases ob with
    | resolves => simp [hab, hcb, statusOf, trialOwnLogs]
    | rejects msg => simp [hab, hcb, statusOf, trialOwnLogs]
  have h3 : runTrial
      ⟨[(a, la ++ lb), (b, lb)],
       [⟨a, TrialStatus.success, la ++ lb⟩,
        ⟨b, statusOf ob, trialOwnLogs lb ob⟩,
        ⟨c, TrialStatus.pending, []⟩], 1, 2⟩
      ⟨c, lc, ExecOutcome.resolves⟩ =
      ⟨[(a, la ++ lb ++ lc), (b, lb ++ lc), (c, lc)],
       [⟨a, TrialStatus.success, la ++ lb ++ lc⟩,
        ⟨b, statusOf ob, if lc.isEmpty then trialOwnLogs lb ob else lb ++ lc⟩,
        ⟨c, TrialStatus.success, lc⟩], 1, 3⟩ := by
    simp only [runTrial, List.cons_append, List.nil_append]
    rw [lineFoldThreeHandlers a b c hba hca hab hcb hac hbc lc (la ++ lb) lb []
      (trialOwnLogs lb ob) TrialStatus.success (statusOf ob) TrialStatus.pending]
    simp [hac, hbc, hca, hcb]
  subst hout
  simp only [runDebugTest, List.foldl, List.map]
  rw [h1, h2, h3]
  refine ⟨by simp, by simp, by simp, by simp, ?_⟩
  intro hob
  subst hob
  cases hlc : lc.isEmpty with
  | true => simp [List.isEmpty_iff.mp hlc, trialOwnLogs]
  | false => simp [hlc]

/-- Witness for C6: a batch whose middle trial rejects still reports
success, failed, success in order. -/
theorem c6_batch_amended_witness :
    (runDebugTest [⟨"A", ["a1"], ExecOutcome.resolves⟩,
      ⟨"B", ["b1"], ExecOutcome.rejects "boom"⟩,
      ⟨"C", ["c1"], ExecOutcome.resolves⟩]).results.map DebugResult.status =
      [TrialStatus.success, statusOf (ExecOutcome.rejects "boom"),
        TrialStatus.success] :=
  (c6_batch_amended "A" "B" "C" ["a1"] ["b1"] ["c1"] (ExecOutcome.rejects "boom")
    (by decide) (by decide) (by decide) _ rfl).2.1

/-- Counterexample to C6 as stated: in a two-trial batch the line
emitted during the second trial also lands in the log list of the
first trial, so the log list of a trial does not receive only the
lines emitted while that trial is active. -/
theorem c6_log_leak_counterexample :
    ((runDebugTest [⟨"A", ["a"], ExecOutcome.resolves⟩,
        ⟨"B", ["b"], ExecOutcome.resolves⟩]).results.getD 0
      ⟨"", TrialStatus.pending, []⟩).logs = ["a", "b"] ∧
    ((runDebugTest [⟨"A", ["a"], ExecOutcome.resolves⟩,
        ⟨"B", ["b"], ExecOutcome.resolves⟩]).results.getD 1
      ⟨"", TrialStatus.pending, []⟩).logs = ["b"] ∧
    (runDebugTest [⟨"A", ["a"], ExecOutcome.resolves⟩,
        ⟨"B", ["b"], ExecOutcome.resolves⟩]).results.map DebugResult.status =
      [TrialStatus.success, TrialStatus.success] := by
  decide

end VideoConverter
